import Mathlib

/-
Verification of the dns-chord node against its specification.

The Go sources are embedded shallowly: pure functions become Lean
functions on Nat (machine uint64/uint32 arithmetic is made explicit with
mod 2^64 / mod 2^32), the fallible DNS-resolution collaborator becomes an
Option-valued oracle, and every RPC round-trip becomes an oracle
parameter (the transport returns a zero-valued reply on failure, so a
single oracle of type Rpc covers both success and failure).  A call to
os.Exit is modelled by returning none from QueryDNS.
-/

namespace DnsChord

/-! ## SHA-256 (crypto/sha256), operating on byte lists, words as Nat mod 2^32 -/

namespace sha2

def add32 (a b : Nat) : Nat := (a + b) % 4294967296

def rotr (n x : Nat) : Nat := ((x >>> n) ||| (x <<< (32 - n))) % 4294967296

def bigSigma0 (x : Nat) : Nat := (rotr 2 x) ^^^ (rotr 13 x) ^^^ (rotr 22 x)

def bigSigma1 (x : Nat) : Nat := (rotr 6 x) ^^^ (rotr 11 x) ^^^ (rotr 25 x)

def smallSigma0 (x : Nat) : Nat := (rotr 7 x) ^^^ (rotr 18 x) ^^^ (x >>> 3)

def smallSigma1 (x : Nat) : Nat := (rotr 17 x) ^^^ (rotr 19 x) ^^^ (x >>> 10)

def chF (e f g : Nat) : Nat := (e &&& f) ^^^ ((4294967295 - e) &&& g)

def majF (a b c : Nat) : Nat := (a &&& b) ^^^ (a &&& c) ^^^ (b &&& c)

def K : List Nat :=
  [1116352408, 1899447441, 3049323471, 3921009573, 961987163, 1508970993,
   2453635748, 2870763221, 3624381080, 310598401, 607225278, 1426881987,
   1925078388, 2162078206, 2614888103, 3248222580, 3835390401, 4022224774,
   264347078, 604807628, 770255983, 1249150122, 1555081692, 1996064986,
   2554220882, 2821834349, 2952996808, 3210313671, 3336571891, 3584528711,
   113926993, 338241895, 666307205, 773529912, 1294757372, 1396182291,
   1695183700, 1986661051, 2177026350, 2456956037, 2730485921, 2820302411,
   3259730800, 3345764771, 3516065817, 3600352804, 4094571909, 275423344,
   430227734, 506948616, 659060556, 883997877, 958139571, 1322822218,
   1537002063, 1747873779, 1955562222, 2024104815, 2227730452, 2361852424,
   2428436474, 2756734187, 3204031479, 3329325298]

def initH : List Nat :=
  [1779033703, 3144134277, 1013904242, 2773480762,
   1359893119, 2600822924, 528734635, 1541459225]

/-- Big-endian bytes of a value, n bytes wide. -/
def toBytesBE (n : Nat) (x : Nat) : List Nat :=
  (List.range n).map (fun i => (x >>> (8 * (n - 1 - i))) % 256)

/-- Big-endian word from a byte list. -/
def beWord (b : List Nat) : Nat := b.foldl (fun a x => a * 256 + x) 0

def chunksAux : Nat → Nat → List Nat → List (List Nat)
  | 0, _, _ => []
  | _, _, [] => []
  | fuel + 1, sz, l => l.take sz :: chunksAux fuel sz (l.drop sz)

def chunks (sz : Nat) (l : List Nat) : List (List Nat) := chunksAux (l.length + 1) sz l

/-- Message padding: append 0x80, zero bytes, and the 64-bit big-endian bit length. -/
def padMessage (msg : List Nat) : List Nat :=
  let l := msg.length
  msg ++ 128 :: List.replicate ((120 - (l + 1) % 64) % 64) 0 ++ toBytesBE 8 ((8 * l) % 18446744073709551616)

/-- Extend the 16-word schedule by n further words. -/
def extendW : Nat → List Nat → List Nat
  | 0, w => w
  | n + 1, w =>
    let i := w.length
    let nw := (smallSigma1 (w.getD (i - 2) 0) + w.getD (i - 7) 0 +
               smallSigma0 (w.getD (i - 15) 0) + w.getD (i - 16) 0) % 4294967296
    extendW n (w ++ [nw])

def msgSchedule (block : List Nat) : List Nat :=
  extendW 48 ((chunks 4 block).map beWord)

def roundStep (regs : List Nat) (kw : Nat × Nat) : List Nat :=
  match regs with
  | [a, b, c, d, e, f, g, h] =>
    let t1 := (h + bigSigma1 e + chF e f g + kw.1 + kw.2) % 4294967296
    let t2 := (bigSigma0 a + majF a b c) % 4294967296
    [(t1 + t2) % 4294967296, a, b, c, (d + t1) % 4294967296, e, f, g]
  | r => r

def compressBlock (h : List Nat) (block : List Nat) : List Nat :=
  let w := msgSchedule block
  let regs := (K.zip w).foldl roundStep h
  (h.zip regs).map (fun p => (p.1 + p.2) % 4294967296)

/-- SHA-256 digest (32 bytes) of a byte list. -/
def sha256 (msg : List Nat) : List Nat :=
  (((chunks 64 (padMessage msg)).foldl compressBlock initH).map (toBytesBE 4)).flatten

end sha2

/-! ## utility.go (package main): the hash of a name to a ring identifier -/

namespace utility

/-- const M = 64 in utility.go (the hashing bit width). -/
def M : Nat := 64

/-- binary.BigEndian.Uint64 of the first bytes. -/
def uint64be (bytes : List Nat) : Nat := bytes.foldl (fun a b => a * 256 + b) 0

/-- Bit length of a natural number, fuel-driven so that the kernel evaluates it. -/
def bitLen : Nat → Nat → Nat
  | 0, _ => 0
  | fuel + 1, n => if n = 0 then 0 else bitLen fuel (n / 2) + 1

/-- Nearest float64 to an integer below 2^64: Go performs
float64(binary.BigEndian.Uint64 ...), an IEEE-754 binary64 conversion that
rounds to nearest, ties to even, keeping a 53-bit significand.  The result
is again an integer, returned here as a Nat (it can be 2^64 itself). -/
def roundFloat64 (u : Nat) : Nat :=
  if u ≤ 9007199254740992 then u
  else
    let e := bitLen 64 u - 53
    let q := u >>> e
    let r := u % (2 ^ e)
    let half := 2 ^ (e - 1)
    if r < half then q <<< e
    else if half < r then (q + 1) <<< e
    else if q % 2 = 0 then q <<< e else (q + 1) <<< e

/-- GenerateHash of utility.go: SHA-256, take the first 8 bytes big-endian,
round-trip through float64 (the uint64 value is first converted to float64,
then math.Mod by float64(2^64) = exactly 2^64, then truncated back to
uint64).  Since roundFloat64 u lies in [0, 2^64], the float math.Mod step
is exactly the Nat mod below. -/
def GenerateHash (input : List Nat) : Nat :=
  let id := sha2.sha256 input
  let unmoddedID := roundFloat64 (uint64be (id.take 8))
  let modValue := 2 ^ M
  unmoddedID % modValue

/-- Follows the words of the specification (section 4.1), not the source:
H(s) = uint64_be(SHA-256(s)[0..8]) mod 2^M. -/
def GenerateHashSpec (input : List Nat) : Nat :=
  uint64be ((sha2.sha256 input).take 8) % 2 ^ M

end utility

/-! ## Data model of the node package (part_000): messages, pointers, cache, node state -/

/-- RequestMessage of core.com/message as used by the node (fields read in part_000). -/
structure RequestMessage where
  type : String
  TargetId : Nat
  IP : String
deriving DecidableEq, Repr

/-- ResponseMessage of core.com/message as used by the node.  A zero value
(empty type, zero id, empty address) is what the transport returns on any
RPC failure. -/
structure ResponseMessage where
  type : String
  Nodeid : Nat
  IP : String
deriving DecidableEq, Repr

structure Pointer where
  Nodeid : Nat
  IP : String
deriving DecidableEq, Repr

structure Cache where
  value : List String
  counter : Nat
deriving DecidableEq, Repr

/-- The Go zero value of Pointer. -/
def emptyPointer : Pointer := { Nodeid := 0, IP := "" }

/-- The Go zero value of ResponseMessage. -/
def emptyResponse : ResponseMessage := { type := "", Nodeid := 0, IP := "" }

/-- Node state.  The Go map CachedQuery is carried as an association list
whose list order stands for the (arbitrary) map iteration order; keys are
kept distinct exactly as map keys are. -/
structure Node where
  Nodeid : Nat
  IP : String
  FingerTable : List Pointer
  Successor : Pointer
  Predecessor : Pointer
  Logging : Bool
  CachedQuery : List (Nat × Cache)
  HashIPStorage : List (Nat × List String)
  Counter : Nat
deriving DecidableEq, Repr

namespace node

/-- const M = 32 in the node package (finger-table width). -/
def M : Nat := 32

def CACHE_SIZE : Nat := 5

def PING : String := "ping"

def ACK : String := "ack"

def FIND_SUCCESSOR : String := "find_successor"

def GET_PREDECESSOR : String := "get_predecessor"

def NOTIFY : String := "notify"

/-- An RPC oracle: the reply pointer of a FIND_SUCCESSOR(target) call sent
to the given address.  A failed transport yields whatever the oracle says,
so theorems quantified over the oracle cover failures too. -/
def Rpc : Type := Nat → String → Pointer

/-- Modelled from the spec: the belongsTo predicate of the node package
utility (its source file is not under src/).  Spec section 4.1: belongsTo(k, a, b)
holds iff k lies in the half-open interval (a, b] on the ring, wrapping
through 2^M - 1 back to 0; when a = b the interval is the whole ring minus
the point a, so any k different from a belongs. -/
def belongsTo (k a b : Nat) : Bool :=
  if a = b then k != a
  else if a < b then decide (a < k ∧ k ≤ b)
  else decide (a < k ∨ k ≤ b)

/-- Modelled from the spec: the between predicate of the node package
utility (its source file is not under src/).  Spec section 4.1: between(k, a, b)
holds iff k lies in the open interval (a, b) with the same wrap semantics,
and when a = b any k different from a belongs. -/
def between (k a b : Nat) : Bool :=
  if a = b then k != a
  else if a < b then decide (a < k ∧ k < b)
  else decide (a < k ∨ k < b)

/-- The loop of ClosestPrecedingNode: i runs from M - 1 down to 0 over the
finger table; fuel n means indices n - 1, ..., 0 remain to scan. -/
def cpnLoop (node : Node) (id : Nat) : Nat → Pointer
  | 0 => { Nodeid := node.Nodeid, IP := node.IP }
  | i + 1 =>
    if belongsTo (node.FingerTable.getD i emptyPointer).Nodeid node.Nodeid id then
      node.FingerTable.getD i emptyPointer
    else cpnLoop node id i

def ClosestPrecedingNode (node : Node) (id : Nat) : Pointer := cpnLoop node id M

/-- FindSuccessor of part_000.  The recursive RPC to the closest preceding
node is the oracle call. -/
def FindSuccessor (rpc : Rpc) (node : Node) (id : Nat) : Pointer :=
  if belongsTo id node.Nodeid node.Successor.Nodeid then
    { Nodeid := node.Successor.Nodeid, IP := node.Successor.IP }
  else
    let p := ClosestPrecedingNode node id
    if p ≠ emptyPointer ∧ p.Nodeid ≠ node.Nodeid then rpc id p.IP
    else node.Successor

/-- Follows the words of the specification (section 4.2), not the source:
if belongsTo(k, self, successor) return successor; otherwise take the
closest preceding node p; if p is empty or equals self return successor as
a last resort, else forward the lookup to p. -/
def FindSuccessorSpec (rpc : Rpc) (node : Node) (k : Nat) : Pointer :=
  if belongsTo k node.Nodeid node.Successor.Nodeid then node.Successor
  else
    let p := ClosestPrecedingNode node k
    if p = emptyPointer ∨ p.Nodeid = node.Nodeid then node.Successor
    else rpc k p.IP

/-- Notify of part_000: returns the updated node and the accept status. -/
def Notify (node : Node) (x : Pointer) : Node × Bool :=
  if node.Predecessor = emptyPointer ∨ between x.Nodeid node.Predecessor.Nodeid node.Nodeid then
    ({ node with Predecessor := { Nodeid := x.Nodeid, IP := x.IP } }, true)
  else (node, false)

/-- HandleIncomingMessage of part_000: the dispatcher.  The reply starts as
the zero ResponseMessage and each case assigns only the fields the source
assigns. -/
def HandleIncomingMessage (rpc : Rpc) (node : Node) (msg : RequestMessage) :
    Node × ResponseMessage :=
  if msg.type = PING then
    (node, { type := ACK, Nodeid := 0, IP := "" })
  else if msg.type = FIND_SUCCESSOR then
    let pointer := FindSuccessor rpc node msg.TargetId
    (node, { type := ACK, Nodeid := pointer.Nodeid, IP := pointer.IP })
  else if msg.type = NOTIFY then
    let r := Notify node { Nodeid := msg.TargetId, IP := msg.IP }
    (r.1, if r.2 then { type := ACK, Nodeid := 0, IP := "" } else emptyResponse)
  else if msg.type = GET_PREDECESSOR then
    (node, { type := "", Nodeid := node.Predecessor.Nodeid, IP := node.Predecessor.IP })
  else (node, emptyResponse)

/-- One iteration of the stabilize loop of part_000, parametrised by the
GET_PREDECESSOR reply obtained from the successor and by the RPC oracle
used by the inner FindSuccessor call.  The returned Bool records whether a
NOTIFY message was sent to the successor. -/
def stabilize (rpc : Rpc) (node : Node) (reply : ResponseMessage) : Node × Bool :=
  let sucessorsPredecessor : Pointer := { Nodeid := reply.Nodeid, IP := reply.IP }
  let node1 :=
    if sucessorsPredecessor ≠ emptyPointer then
      if between sucessorsPredecessor.Nodeid node.Nodeid node.Successor.Nodeid then
        { node with Successor := { Nodeid := sucessorsPredecessor.Nodeid, IP := sucessorsPredecessor.IP } }
      else node
    else
      let s := FindSuccessor rpc node node.Nodeid
      { node with Successor := if s = emptyPointer then { Nodeid := node.Nodeid, IP := node.IP } else s }
  (node1, decide (node1.Nodeid ≠ node1.Successor.Nodeid))

/-- One iteration of the CheckPredecessor loop of part_000, parametrised by
the PING reply (the transport returns the zero ResponseMessage when the
RPC fails, so an empty reply covers both a failed call and a dead peer). -/
def CheckPredecessor (node : Node) (reply : ResponseMessage) : Node :=
  if node.Predecessor = emptyPointer then node
  else if reply = emptyResponse then { node with Predecessor := emptyPointer }
  else node

/-- The finger target computed by FixFingers in part_000: a uint64 addition
of node id and 2^i (math.Pow is exact on these powers), then 2^32 is
subtracted once when the sum strictly exceeds 2^32. -/
def fingerTarget (n i : Nat) : Nat :=
  let nodePlusTwoI := (n + 2 ^ i) % 18446744073709551616
  if nodePlusTwoI > 2 ^ 32 then nodePlusTwoI - 2 ^ 32 else nodePlusTwoI

/-- One assignment of the FixFingers inner loop: entry i is set to the
successor of the finger target, looked up in the current state. -/
def fixFingersStep (rpc : Rpc) (nd : Node) (i : Nat) : Node :=
  { nd with FingerTable := nd.FingerTable.set i (FindSuccessor rpc nd (fingerTarget nd.Nodeid i)) }

/-- One full cycle of the FixFingers loop of part_000: indices ascending. -/
def FixFingers (rpc : Rpc) (node : Node) : Node :=
  (List.range M).foldl (fixFingersStep rpc) node

/-- The www. strip at the top of QueryDNS. -/
def stripWWW (website : List Nat) : List Nat :=
  if website.take 4 = [119, 119, 119, 46] then website.drop 4 else website

/-- Map read CachedQuery[k]. -/
def lookupCache (m : List (Nat × Cache)) (k : Nat) : Option Cache :=
  (m.find? (fun e => e.1 == k)).map (fun e => e.2)

/-- Map delete(CachedQuery, k): removes the entry at key k. -/
def eraseKey (m : List (Nat × Cache)) (k : Nat) : List (Nat × Cache) :=
  match m with
  | [] => []
  | e :: t => if e.1 = k then t else e :: eraseKey t k

/-- The minimum scan of QueryDNS: runs over the map entries with
accumulators minKey (starting at 0) and minValue (starting at 2^64 - 1),
updating both when an entry counter is strictly below minValue. -/
def findMin : List (Nat × Cache) → Nat → Nat → Nat × Nat
  | [], mk, mv => (mk, mv)
  | e :: t, mk, mv =>
    if e.2.counter < mv then findMin t e.1 e.2.counter else findMin t mk mv

/-- The eviction step of QueryDNS (the block after the insertion): when the
map holds more than CACHE_SIZE entries, scan for the minimum counter and
delete that key, but only when the found key is nonzero. -/
def evictStep (m : List (Nat × Cache)) : List (Nat × Cache) :=
  if m.length > CACHE_SIZE then
    let r := findMin m 0 18446744073709551615
    if r.1 ≠ 0 then eraseKey m r.1 else m
  else m

/-- QueryDNS of part_000.  The DNS collaborator is the resolve oracle
(none = lookup error); the node package utility hash is the same
GenerateHash as utility.go.  A none result models os.Exit(1); the write
of the resolved records to the storage file touches no node state.  On a
cache hit only log output happens. -/
def QueryDNS (rpc : Rpc) (resolve : List Nat → Option (List String)) (node : Node)
    (website : List Nat) : Option Node :=
  let node := { node with Counter := (node.Counter + 1) % 18446744073709551616 }
  let website := stripWWW website
  let hashedWebsite := utility.GenerateHash website
  let _succPointer := FindSuccessor rpc node hashedWebsite
  match lookupCache node.CachedQuery hashedWebsite with
  | some _ => some node
  | none =>
    match resolve website with
    | none => none
    | some ips =>
      let cache1 := (hashedWebsite, ({ value := ips, counter := node.Counter } : Cache)) :: node.CachedQuery
      some { node with CachedQuery := evictStep cache1 }

end node

/-! ## Concrete states used to evaluate the operations -/

/-- The bytes of the name example.com. -/
def exampleBytes : List Nat := [101, 120, 97, 109, 112, 108, 101, 46, 99, 111, 109]

/-- An RPC oracle answering every forwarded lookup with the zero pointer. -/
def rpcNone : node.Rpc := fun _ _ => emptyPointer

/-- A DNS collaborator that fails on every name. -/
def resolveFail : List Nat → Option (List String) := fun _ => none

/-- A DNS collaborator that resolves every name to one address. -/
def resolveOne : List Nat → Option (List String) := fun _ => some ["93.184.216.34"]

/-- A one-node state with an empty cache. -/
def nodeEmpty : Node :=
  { Nodeid := 7, IP := "n0", FingerTable := [], Successor := { Nodeid := 7, IP := "n0" },
    Predecessor := emptyPointer, Logging := false, CachedQuery := [], HashIPStorage := [],
    Counter := 0 }

/-- A node whose cache holds CACHE_SIZE entries and whose least counter sits
at key 0: the next cache miss triggers the eviction scan, which then finds
minKey = 0 and skips the delete. -/
def nodeC1 : Node :=
  { nodeEmpty with
    CachedQuery := [(0, { value := ["a"], counter := 1 }), (1, { value := ["b"], counter := 2 }),
                    (2, { value := ["c"], counter := 3 }), (3, { value := ["d"], counter := 4 }),
                    (4, { value := ["e"], counter := 5 })],
    Counter := 5 }

/-- A node whose finger table has exactly one usable entry, at index 31,
whose id equals the looked-up key. -/
def nodeC5 : Node :=
  { nodeEmpty with
    Nodeid := 10
    IP := "n5"
    Successor := { Nodeid := 10, IP := "n5" }
    FingerTable := List.replicate 31 emptyPointer ++ [{ Nodeid := 20, IP := "f" }] }

/-- A two-pointer state for exercising one stabilize iteration. -/
def nodeW7 : Node :=
  { nodeEmpty with Nodeid := 1, IP := "w7", Successor := { Nodeid := 5, IP := "s" } }

/-- A GET_PREDECESSOR reply carrying the pointer 3 : x. -/
def replyW7 : ResponseMessage := { type := "", Nodeid := 3, IP := "x" }

/-- A node with empty predecessor, ready to accept a notify. -/
def nodeW8 : Node := { nodeEmpty with Nodeid := 6, IP := "w8" }

/-- The pointer a notify carries. -/
def xW8 : Pointer := { Nodeid := 9, IP := "p" }

/-- A node with a known predecessor, for the check-predecessor witness. -/
def nodeW9 : Node := { nodeEmpty with Nodeid := 6, IP := "w9", Predecessor := { Nodeid := 3, IP := "p" } }

/-- A ping request. -/
def msgPing : RequestMessage := { type := "ping", TargetId := 0, IP := "" }

/-- A six-entry cache whose freshest entry is key 6 with counter 6. -/
def cacheW10 : List (Nat × Cache) :=
  [(1, { value := ["a"], counter := 1 }), (2, { value := ["b"], counter := 2 }),
   (3, { value := ["c"], counter := 3 }), (4, { value := ["d"], counter := 4 }),
   (5, { value := ["e"], counter := 5 }), (6, { value := ["f"], counter := 6 })]

/-! ## Helper lemmas -/

namespace node

/-- The ClosestPrecedingNode loop returns self when no scanned entry passes
belongsTo, and otherwise the scanned entry of highest index passing it. -/
lemma cpnLoop_spec (nd : Node) (k : Nat) (n : Nat) :
    (cpnLoop nd k n = { Nodeid := nd.Nodeid, IP := nd.IP } ∧
      ∀ i, i < n → belongsTo (nd.FingerTable.getD i emptyPointer).Nodeid nd.Nodeid k = false) ∨
    (∃ i, i < n ∧ cpnLoop nd k n = nd.FingerTable.getD i emptyPointer ∧
      belongsTo (nd.FingerTable.getD i emptyPointer).Nodeid nd.Nodeid k = true ∧
      ∀ j, i < j → j < n → belongsTo (nd.FingerTable.getD j emptyPointer).Nodeid nd.Nodeid k = false) := by
  induction n with
  | zero => exact Or.inl ⟨rfl, fun i hi => absurd hi (Nat.not_lt_zero i)⟩
  | succ n ih =>
    by_cases h : belongsTo (nd.FingerTable.getD n emptyPointer).Nodeid nd.Nodeid k = true
    · refine Or.inr ⟨n, Nat.lt_succ_self n, ?_, h, ?_⟩
      · show (if belongsTo (nd.FingerTable.getD n emptyPointer).Nodeid nd.Nodeid k then
            nd.FingerTable.getD n emptyPointer else cpnLoop nd k n) = _
        rw [if_pos h]
      · intro j hj hj'
        omega
    · have hf : belongsTo (nd.FingerTable.getD n emptyPointer).Nodeid nd.Nodeid k = false :=
        Bool.eq_false_iff.mpr (fun hc => h hc)
      have hstep : cpnLoop nd k (n + 1) = cpnLoop nd k n := by
        show (if belongsTo (nd.FingerTable.getD n emptyPointer).Nodeid nd.Nodeid k then
            nd.FingerTable.getD n emptyPointer else cpnLoop nd k n) = _
        rw [if_neg h]
      rcases ih with ⟨h1, h2⟩ | ⟨i, hi, he, hb, hall⟩
      · refine Or.inl ⟨hstep.trans h1, ?_⟩
        intro i hi
        rcases Nat.lt_succ_iff_lt_or_eq.mp hi with hlt | heq
        · exact h2 i hlt
        · rw [heq]; exact hf
      · refine Or.inr ⟨i, Nat.lt_succ_of_lt hi, hstep.trans he, hb, ?_⟩
        intro j hj hj'
        rcases Nat.lt_succ_iff_lt_or_eq.mp hj' with hlt | heq
        · exact hall j hj hlt
        · rw [heq]; exact hf

/-- Folding fixFingersStep over any index list never touches Predecessor. -/
lemma foldl_fixFingersStep_pred (rpc : Rpc) (l : List Nat) :
    ∀ nd : Node, (l.foldl (fixFingersStep rpc) nd).Predecessor = nd.Predecessor := by
  induction l with
  | nil => intro nd; rfl
  | cons a t ih => intro nd; rw [List.foldl_cons, ih]; rfl

/-- The minimum scan either keeps its accumulators (and then every entry
counter is at least the running minimum) or returns the key and counter of
an entry whose counter is strictly below the initial minimum and at most
every entry counter. -/
lemma findMin_spec (l : List (Nat × Cache)) (mk mv : Nat) :
    (findMin l mk mv = (mk, mv) ∧ ∀ e ∈ l, mv ≤ e.2.counter) ∨
    ((∃ e ∈ l, e.1 = (findMin l mk mv).1 ∧ e.2.counter = (findMin l mk mv).2) ∧
      (findMin l mk mv).2 < mv ∧ ∀ e ∈ l, (findMin l mk mv).2 ≤ e.2.counter) := by
  induction l generalizing mk mv with
  | nil => exact Or.inl ⟨rfl, by simp⟩
  | cons a t ih =>
    by_cases h : a.2.counter < mv
    · have hstep : findMin (a :: t) mk mv = findMin t a.1 a.2.counter := by
        simp [findMin, h]
      rcases ih a.1 a.2.counter with ⟨h1, h2⟩ | ⟨⟨e, he, he1, he2⟩, h3, h4⟩
      · refine Or.inr ⟨⟨a, List.mem_cons_self a t, ?_, ?_⟩, ?_, ?_⟩
        · rw [hstep, h1]
        · rw [hstep, h1]
        · rw [hstep, h1]; exact h
        · intro e he'
          rw [hstep, h1]
          rcases List.mem_cons.mp he' with rfl | hm
          · exact Nat.le_refl _
          · exact h2 e hm
      · refine Or.inr ⟨⟨e, List.mem_cons_of_mem a he, ?_, ?_⟩, ?_, ?_⟩
        · rw [hstep]; exact he1
        · rw [hstep]; exact he2
        · rw [hstep]; exact Nat.lt_trans h3 h
        · intro e' he'
          rw [hstep]
          rcases List.mem_cons.mp he' with rfl | hm
          · exact Nat.le_of_lt h3
          · exact h4 e' hm
    · have hstep : findMin (a :: t) mk mv = findMin t mk mv := by
        simp [findMin, h]
      rcases ih mk mv with ⟨h1, h2⟩ | ⟨⟨e, he, he1, he2⟩, h3, h4⟩
      · refine Or.inl ⟨hstep.trans h1, ?_⟩
        intro e he'
        rcases List.mem_cons.mp he' with rfl | hm
        · exact Nat.le_of_not_lt h
        · exact h2 e hm
      · refine Or.inr ⟨⟨e, List.mem_cons_of_mem a he, ?_, ?_⟩, ?_, ?_⟩
        · rw [hstep]; exact he1
        · rw [hstep]; exact he2
        · rw [hstep]; exact h3
        · intro e' he'
          rw [hstep]
          rcases List.mem_cons.mp he' with rfl | hm
          · exact Nat.le_trans (Nat.le_of_lt h3) (Nat.le_of_not_lt h)
          · exact h4 e' hm

/-- Deleting a key different from k leaves the lookup of k unchanged. -/
lemma lookupCache_eraseKey (l : List (Nat × Cache)) (k j : Nat) (h : j ≠ k) :
    lookupCache (eraseKey l j) k = lookupCache l k := by
  induction l with
  | nil => rfl
  | cons a t ih =>
    by_cases ha : a.1 = j
    · have hb : (a.1 == k) = false := by simp [ha, h]
      have h1 : eraseKey (a :: t) j = t := by
        simp [eraseKey, ha]
      rw [h1]
      simp [lookupCache, List.find?, hb]
    · have h1 : eraseKey (a :: t) j = a :: eraseKey t j := by
        simp [eraseKey, ha]
      rw [h1]
      by_cases hk : a.1 = k
      · have hb : (a.1 == k) = true := by simp [hk]
        simp [lookupCache, List.find?, hb]
      · have hb : (a.1 == k) = false := by simp [hk]
        simpa [lookupCache, List.find?, hb] using ih

/-- On an association list with distinct keys, lookup finds a member. -/
lemma lookupCache_mem (l : List (Nat × Cache)) (k : Nat) (v : Cache)
    (hm : (k, v) ∈ l) (hnd : (l.map Prod.fst).Nodup) :
    lookupCache l k = some v := by
  induction l with
  | nil => cases hm
  | cons a t ih =>
    rcases List.mem_cons.mp hm with rfl | hmt
    · simp [lookupCache, List.find?]
    · have hnd' := (List.nodup_cons.mp hnd)
      have hk : a.1 ≠ k := by
        intro hc
        exact hnd'.1 (hc ▸ (List.mem_map.mpr ⟨(k, v), hmt, rfl⟩))
      have hk' : (a.1 == k) = false := beq_false_of_ne hk
      simpa [lookupCache, List.find?, hk'] using ih hmt hnd'.2

/-- A list of at least two entries with distinct keys containing (k, v)
also contains an entry at a different key. -/
lemma exists_mem_ne_key (l : List (Nat × Cache)) (k : Nat) (v : Cache)
    (hm : (k, v) ∈ l) (hnd : (l.map Prod.fst).Nodup) (hlen : 2 ≤ l.length) :
    ∃ e ∈ l, e.1 ≠ k := by
  match l, hm, hnd, hlen with
  | a :: b :: t, hm, hnd, _ =>
    by_cases ha : a.1 = k
    · have hnd' := List.nodup_cons.mp hnd
      refine ⟨b, List.mem_cons_of_mem a (List.mem_cons_self b t), ?_⟩
      intro hc
      exact hnd'.1 (by
        rw [ha]
        rw [← hc]
        exact List.mem_map.mpr ⟨b, List.mem_cons_self b t, rfl⟩)
    · exact ⟨a, List.mem_cons_self a (b :: t), ha⟩

/-! ## Claim theorems -/

set_option maxRecDepth 400000 in
/-- Claim C1: the spec demands that after every insertion the cache holds at
most CACHE_SIZE entries, the smallest-counter entry being evicted on
overflow.  The code violates this: when the minimum-counter entry sits at
key 0, the guard minKey != 0 in QueryDNS skips the delete, so a sixth
insertion leaves six entries in a CACHE_SIZE = 5 cache.  Here nodeC1 holds
five entries with the least counter at key 0 and a miss on example.com
inserts a sixth. -/
theorem QueryDNS_cache_overflow_at_key_zero :
    (QueryDNS rpcNone resolveOne nodeC1 exampleBytes).map (fun nd => nd.CachedQuery.length) =
      some (CACHE_SIZE + 1) ∧ CACHE_SIZE = 5 := by
  constructor
  · decide
  · rfl

set_option maxRecDepth 400000 in
/-- Claim C2, counterexample: the claim says a name-resolution failure is
not fatal and the node keeps running; the code calls os.Exit(1) (modelled
as a none result), so no surviving node state exists after a failing
lookup on a cache miss. -/
theorem QueryDNS_resolution_failure_exits :
    (QueryDNS rpcNone resolveFail nodeEmpty exampleBytes).isSome = false := by
  decide

/-- Claim C2, amended: when the looked-up name misses the cache and the
DNS collaborator fails, QueryDNS terminates the process (none); the cache
is never touched because the process is gone. -/
theorem QueryDNS_resolution_failure_behaviour (rpc : Rpc)
    (resolve : List Nat → Option (List String)) (nd : Node) (website : List Nat)
    (hres : resolve (stripWWW website) = none)
    (hmiss : lookupCache nd.CachedQuery (utility.GenerateHash (stripWWW website)) = none) :
    QueryDNS rpc resolve nd website = none := by
  unfold QueryDNS
  simp [hres, hmiss]

/-- Witness for the amended claim C2 at a concrete node and name. -/
theorem QueryDNS_resolution_failure_behaviour_witness :
    QueryDNS rpcNone resolveFail nodeEmpty exampleBytes = none :=
  QueryDNS_resolution_failure_behaviour rpcNone resolveFail nodeEmpty exampleBytes rfl rfl

set_option maxRecDepth 400000 in
/-- Claim C3: the spec defines H(s) as the first 8 bytes of SHA-256(s) read
big-endian and reduced mod 2^M.  The code routes the 64-bit value through
float64, whose 53-bit significand rounds it: on example.com the code
returns 11779629879860901888 while the specified value is
11779629879860902309. -/
theorem GenerateHash_float64_deviates :
    utility.GenerateHash exampleBytes = 11779629879860901888 ∧
    utility.GenerateHashSpec exampleBytes = 11779629879860902309 ∧
    utility.GenerateHash exampleBytes ≠ utility.GenerateHashSpec exampleBytes := by
  refine ⟨by decide, by decide, ?_⟩
  intro hc
  have h1 : utility.GenerateHash exampleBytes = 11779629879860901888 := by decide
  have h2 : utility.GenerateHashSpec exampleBytes = 11779629879860902309 := by decide
  rw [h1, h2] at hc
  exact absurd hc (by decide)

/-- Claim C4: the spec demands the finger target (node_id + 2^i) mod 2^M
computed in integer arithmetic.  The code subtracts 2^M at most once and
only when the sum strictly exceeds 2^M, so at node_id = 2^32 - 1 and i = 0
the code computes 2^32 where the spec demands 0. -/
theorem FixFingers_target_wrap_incorrect :
    fingerTarget (2 ^ 32 - 1) 0 = 2 ^ 32 ∧ ((2 ^ 32 - 1) + 2 ^ 0) % 2 ^ 32 = 0 ∧
    fingerTarget (2 ^ 32 - 1) 0 ≠ ((2 ^ 32 - 1) + 2 ^ 0) % 2 ^ 32 := by
  refine ⟨by decide, by decide, by decide⟩

/-- Claim C5, counterexample: the claim says ClosestPrecedingNode returns
the first entry (from index M - 1 down) in the open interval, i.e. passing
between, and self when no entry passes.  On nodeC5 no finger entry passes
between(entry, 10, 20), yet the code returns the index-31 entry whose id
equals the key 20 (it passes the half-open belongsTo), not self. -/
theorem ClosestPrecedingNode_between_refuted :
    (∀ i, i < M → between (nodeC5.FingerTable.getD i emptyPointer).Nodeid nodeC5.Nodeid 20 = false) ∧
    ClosestPrecedingNode nodeC5 20 = { Nodeid := 20, IP := "f" } ∧
    ClosestPrecedingNode nodeC5 20 ≠ { Nodeid := nodeC5.Nodeid, IP := nodeC5.IP } := by
  refine ⟨by decide, by decide, by decide⟩

/-- Claim C5, amended: ClosestPrecedingNode scans the finger table from
index M - 1 down to 0 and returns the first entry whose id passes the
half-open belongsTo(entry, self, k) predicate, and the node own pointer
when no entry passes. -/
theorem ClosestPrecedingNode_first_belongsTo (nd : Node) (k : Nat) :
    (ClosestPrecedingNode nd k = { Nodeid := nd.Nodeid, IP := nd.IP } ∧
      ∀ i, i < M → belongsTo (nd.FingerTable.getD i emptyPointer).Nodeid nd.Nodeid k = false) ∨
    (∃ i, i < M ∧ ClosestPrecedingNode nd k = nd.FingerTable.getD i emptyPointer ∧
      belongsTo (nd.FingerTable.getD i emptyPointer).Nodeid nd.Nodeid k = true ∧
      ∀ j, i < j → j < M → belongsTo (nd.FingerTable.getD j emptyPointer).Nodeid nd.Nodeid k = false) :=
  cpnLoop_spec nd k M

/-- Witness for the amended claim C5 at a concrete state and key. -/
theorem ClosestPrecedingNode_first_belongsTo_witness :
    (ClosestPrecedingNode nodeC5 7 = { Nodeid := nodeC5.Nodeid, IP := nodeC5.IP } ∧
      ∀ i, i < M → belongsTo (nodeC5.FingerTable.getD i emptyPointer).Nodeid nodeC5.Nodeid 7 = false) ∨
    (∃ i, i < M ∧ ClosestPrecedingNode nodeC5 7 = nodeC5.FingerTable.getD i emptyPointer ∧
      belongsTo (nodeC5.FingerTable.getD i emptyPointer).Nodeid nodeC5.Nodeid 7 = true ∧
      ∀ j, i < j → j < M → belongsTo (nodeC5.FingerTable.getD j emptyPointer).Nodeid nodeC5.Nodeid 7 = false) :=
  ClosestPrecedingNode_first_belongsTo nodeC5 7

/-- Claim C6: FindSuccessor returns the successor pointer when the key
belongs to (self, successor]; otherwise it consults the closest preceding
node p, forwards the lookup to p when p is a nonempty non-self pointer,
and falls back to the successor when p is empty or self.  Proved as a
refinement: the embedded code equals, pointwise, the function written from
the specification words. -/
theorem FindSuccessor_matches_spec (rpc : Rpc) (nd : Node) (k : Nat) :
    FindSuccessor rpc nd k = FindSuccessorSpec rpc nd k := by
  simp only [FindSuccessor, FindSuccessorSpec]
  by_cases h1 : belongsTo k nd.Nodeid nd.Successor.Nodeid = true
  · rw [if_pos h1, if_pos h1]
  · rw [if_neg h1, if_neg h1]
    by_cases h2 : ClosestPrecedingNode nd k = emptyPointer ∨ (ClosestPrecedingNode nd k).Nodeid = nd.Nodeid
    · rw [if_neg (by tauto), if_pos h2]
    · rw [if_pos (by tauto), if_neg h2]

/-- Claim C7: one stabilize iteration adopts a nonempty reply pointer x as
successor exactly when between(x, self, successor) holds; on an empty
reply it reverts to find_successor(self), or self when that is empty; and
the NOTIFY message goes out precisely when the (updated) successor id
differs from the node id. -/
theorem stabilize_step_behaviour (rpc : Rpc) (nd : Node) (reply : ResponseMessage) :
    (({ Nodeid := reply.Nodeid, IP := reply.IP } : Pointer) ≠ emptyPointer →
      between reply.Nodeid nd.Nodeid nd.Successor.Nodeid = true →
      (stabilize rpc nd reply).1 = { nd with Successor := { Nodeid := reply.Nodeid, IP := reply.IP } }) ∧
    (({ Nodeid := reply.Nodeid, IP := reply.IP } : Pointer) ≠ emptyPointer →
      between reply.Nodeid nd.Nodeid nd.Successor.Nodeid = false →
      (stabilize rpc nd reply).1 = nd) ∧
    (reply = emptyResponse →
      (stabilize rpc nd reply).1 =
        { nd with Successor :=
            if FindSuccessor rpc nd nd.Nodeid = emptyPointer then { Nodeid := nd.Nodeid, IP := nd.IP }
            else FindSuccessor rpc nd nd.Nodeid }) ∧
    ((stabilize rpc nd reply).2 = true ↔ nd.Nodeid ≠ (stabilize rpc nd reply).1.Successor.Nodeid) := by
  have hfst : (stabilize rpc nd reply).1.Nodeid = nd.Nodeid := by
    simp only [stabilize]
    split_ifs <;> rfl
  have hsnd : (stabilize rpc nd reply).2 =
      decide ((stabilize rpc nd reply).1.Nodeid ≠ (stabilize rpc nd reply).1.Successor.Nodeid) := rfl
  refine ⟨?_, ?_, ?_, ?_⟩
  · intro h1 h2
    simp only [stabilize]
    rw [if_pos h1, if_pos h2]
  · intro h1 h2
    simp only [stabilize]
    rw [if_pos h1, if_neg (by simp [h2])]
  · intro h
    subst h
    simp only [stabilize]
    rw [if_neg (fun hc => hc rfl)]
  · rw [hsnd, hfst, decide_eq_true_iff]

/-- Witness for claim C7: a nonempty reply 3 : x with between(3, 1, 5)
makes the node adopt 3 : x as successor. -/
theorem stabilize_step_behaviour_witness :
    (stabilize rpcNone nodeW7 replyW7).1 = { nodeW7 with Successor := { Nodeid := 3, IP := "x" } } :=
  (stabilize_step_behaviour rpcNone nodeW7 replyW7).1 (by decide) (by decide)

/-- Claim C8: Notify accepts exactly when the predecessor is empty or the
announced pointer falls between the current predecessor and self; a
rejection leaves the node unchanged; and the dispatcher answers a NOTIFY
request with type ACK exactly on acceptance and with the empty reply on
rejection, installing the state Notify computed. -/
theorem Notify_accept_iff (rpc : Rpc) (nd : Node) (x : Pointer) :
    ((Notify nd x).2 = true ↔
      (nd.Predecessor = emptyPointer ∨ between x.Nodeid nd.Predecessor.Nodeid nd.Nodeid = true)) ∧
    ((Notify nd x).2 = true →
      (Notify nd x).1 = { nd with Predecessor := { Nodeid := x.Nodeid, IP := x.IP } }) ∧
    ((Notify nd x).2 = false → (Notify nd x).1 = nd) ∧
    ((HandleIncomingMessage rpc nd { type := NOTIFY, TargetId := x.Nodeid, IP := x.IP }).2.type = ACK ↔
      (Notify nd x).2 = true) ∧
    ((Notify nd x).2 = false →
      (HandleIncomingMessage rpc nd { type := NOTIFY, TargetId := x.Nodeid, IP := x.IP }).2 = emptyResponse) ∧
    ((HandleIncomingMessage rpc nd { type := NOTIFY, TargetId := x.Nodeid, IP := x.IP }).1 = (Notify nd x).1) := by
  have hd : HandleIncomingMessage rpc nd { type := NOTIFY, TargetId := x.Nodeid, IP := x.IP } =
      ((Notify nd x).1,
        if (Notify nd x).2 then { type := ACK, Nodeid := 0, IP := "" } else emptyResponse) := rfl
  by_cases hacc : nd.Predecessor = emptyPointer ∨ between x.Nodeid nd.Predecessor.Nodeid nd.Nodeid = true
  · have h1 : Notify nd x = ({ nd with Predecessor := { Nodeid := x.Nodeid, IP := x.IP } }, true) := by
      simp only [Notify]
      rw [if_pos hacc]
    refine ⟨?_, ?_, ?_, ?_, ?_, ?_⟩
    · rw [h1]
      exact iff_of_true rfl hacc
    · intro _
      rw [h1]
    · intro hc
      rw [h1] at hc
      exact Bool.noConfusion hc
    · rw [hd, h1]
      exact iff_of_true rfl rfl
    · intro hc
      rw [h1] at hc
      exact Bool.noConfusion hc
    · rw [hd]
  · have h1 : Notify nd x = (nd, false) := by
      simp only [Notify]
      rw [if_neg hacc]
    refine ⟨?_, ?_, ?_, ?_, ?_, ?_⟩
    · rw [h1]
      refine iff_of_false ?_ hacc
      intro hc
      exact Bool.noConfusion hc
    · intro hc
      rw [h1] at hc
      exact Bool.noConfusion hc
    · intro _
      rw [h1]
    · rw [hd, h1]
      refine iff_of_false ?_ ?_
      · intro hc
        have hc2 : ("" : String) = ACK := hc
        exact absurd hc2 (by decide)
      · intro hc
        exact Bool.noConfusion hc
    · intro _
      rw [hd, h1]
      rfl
    · rw [hd]

/-- Witness for claim C8: with an empty predecessor, notify accepts. -/
theorem Notify_accept_iff_witness : (Notify nodeW8 xW8).2 = true :=
  ((Notify_accept_iff rpcNone nodeW8 xW8).1).mpr (Or.inl (by decide))

/-- Claim C9: the predecessor pointer moves only as the spec state machine
says.  Notify maps it to the announced pointer exactly under the accept
condition; CheckPredecessor clears it exactly when it is nonempty and the
ping reply is empty, and leaves the node untouched when the predecessor is
empty or the ping succeeds; one stabilize iteration, a FixFingers cycle,
every non-NOTIFY dispatcher request, and any QueryDNS run that returns a
state all leave the predecessor unchanged; a NOTIFY request mutates state
exactly as Notify does.  FindSuccessor and ClosestPrecedingNode build no
state at all, so with QueryDNS covered every embedded operation is
accounted for. -/
theorem predecessor_transitions (rpc : Rpc) (nd : Node) (x : Pointer)
    (reply : ResponseMessage) (msg : RequestMessage)
    (resolve : List Nat → Option (List String)) (website : List Nat) :
    ((Notify nd x).1.Predecessor =
      if nd.Predecessor = emptyPointer ∨ between x.Nodeid nd.Predecessor.Nodeid nd.Nodeid then
        { Nodeid := x.Nodeid, IP := x.IP } else nd.Predecessor) ∧
    ((CheckPredecessor nd reply).Predecessor =
      if nd.Predecessor ≠ emptyPointer ∧ reply = emptyResponse then emptyPointer
      else nd.Predecessor) ∧
    (nd.Predecessor = emptyPointer → CheckPredecessor nd reply = nd) ∧
    (reply ≠ emptyResponse → CheckPredecessor nd reply = nd) ∧
    ((stabilize rpc nd reply).1.Predecessor = nd.Predecessor) ∧
    ((FixFingers rpc nd).Predecessor = nd.Predecessor) ∧
    (msg.type ≠ NOTIFY → (HandleIncomingMessage rpc nd msg).1 = nd) ∧
    (msg.type = NOTIFY →
      (HandleIncomingMessage rpc nd msg).1 = (Notify nd { Nodeid := msg.TargetId, IP := msg.IP }).1) ∧
    (∀ nd1, QueryDNS rpc resolve nd website = some nd1 → nd1.Predecessor = nd.Predecessor) := by
  refine ⟨?_, ?_, ?_, ?_, ?_, ?_, ?_, ?_, ?_⟩
  · simp only [Notify]
    split_ifs <;> rfl
  · simp only [CheckPredecessor]
    by_cases hp : nd.Predecessor = emptyPointer
    · rw [if_pos hp, if_neg (by tauto)]
    · rw [if_neg hp]
      by_cases hr : reply = emptyResponse
      · rw [if_pos hr, if_pos ⟨hp, hr⟩]
      · rw [if_neg hr, if_neg (by tauto)]
  · intro h
    simp only [CheckPredecessor]
    rw [if_pos h]
  · intro h
    simp only [CheckPredecessor]
    by_cases hp : nd.Predecessor = emptyPointer
    · rw [if_pos hp]
    · rw [if_neg hp, if_neg h]
  · simp only [stabilize]
    split_ifs <;> rfl
  · exact foldl_fixFingersStep_pred rpc (List.range M) nd
  · intro h
    simp only [HandleIncomingMessage]
    by_cases h1 : msg.type = PING
    · rw [if_pos h1]
    · rw [if_neg h1]
      by_cases h2 : msg.type = FIND_SUCCESSOR
      · rw [if_pos h2]
      · rw [if_neg h2, if_neg h]
        by_cases h4 : msg.type = GET_PREDECESSOR
        · rw [if_pos h4]
        · rw [if_neg h4]
  · intro h
    simp only [HandleIncomingMessage]
    have h1 : ¬(msg.type = PING) := by rw [h]; decide
    have h2 : ¬(msg.type = FIND_SUCCESSOR) := by rw [h]; decide
    rw [if_neg h1, if_neg h2, if_pos h]
  · intro nd1 h
    simp only [QueryDNS] at h
    split at h
    · injection h with h
      rw [← h]
    · split at h
      · exact Option.noConfusion h
      · injection h with h
        rw [← h]

/-- Witness for claim C9: a known predecessor is cleared by an empty ping
reply. -/
theorem predecessor_transitions_witness :
    (CheckPredecessor nodeW9 emptyResponse).Predecessor = emptyPointer := by
  have h := (predecessor_transitions rpcNone nodeW9 xW8 emptyResponse msgPing resolveOne exampleBytes).2.1
  rw [h]
  rw [if_pos ⟨by decide, rfl⟩]

/-- Claim C10: the entry just inserted by a cache miss survives the
eviction step of QueryDNS.  Stated over an arbitrary association list
standing for any Go map iteration order: whenever the fresh key k carries
a counter strictly above every other entry counter (the no-wraparound
condition) the minimum scan selects some other key, so k is still present
afterwards. -/
theorem QueryDNS_fresh_entry_survives (cache : List (Nat × Cache)) (k : Nat) (v : Cache)
    (hmem : (k, v) ∈ cache) (hnd : (cache.map Prod.fst).Nodup)
    (hmax : ∀ e ∈ cache, e.1 ≠ k → e.2.counter < v.counter)
    (hword : v.counter < 18446744073709551616) :
    lookupCache (evictStep cache) k = some v := by
  simp only [evictStep]
  by_cases hlen : cache.length > CACHE_SIZE
  · rw [if_pos hlen]
    have hlen2 : 2 ≤ cache.length := by
      have : CACHE_SIZE = 5 := rfl
      omega
    obtain ⟨e0, he0, hne0⟩ := exists_mem_ne_key cache k v hmem hnd hlen2
    have he0lt : e0.2.counter < v.counter := hmax e0 he0 hne0
    rcases findMin_spec cache 0 18446744073709551615 with ⟨heq, hall⟩ | ⟨⟨e1, he1, hk1, hc1⟩, hlt1, hall1⟩
    · exfalso
      have := hall e0 he0
      omega
    · by_cases hz : (findMin cache 0 18446744073709551615).1 ≠ 0
      · rw [if_pos hz]
        have hke : (findMin cache 0 18446744073709551615).1 ≠ k := by
          intro hc
          have h1 : lookupCache cache k = some v := lookupCache_mem cache k v hmem hnd
          have h2 : lookupCache cache e1.1 = some e1.2 :=
            lookupCache_mem cache e1.1 e1.2 (by rw [Prod.mk.eta]; exact he1) hnd
          rw [hk1, hc, h1] at h2
          have hv : v = e1.2 := by
            injection h2
          have h3 := hall1 e0 he0
          rw [← hc1, ← hv] at h3
          omega
        rw [lookupCache_eraseKey cache k _ hke]
        exact lookupCache_mem cache k v hmem hnd
      · rw [if_neg hz]
        exact lookupCache_mem cache k v hmem hnd
  · rw [if_neg hlen]
    exact lookupCache_mem cache k v hmem hnd

/-- Witness for claim C10: in a six-entry cache whose freshest entry is key
6 with counter 6, the eviction keeps key 6. -/
theorem QueryDNS_fresh_entry_survives_witness :
    lookupCache (evictStep cacheW10) 6 = some { value := ["f"], counter := 6 } :=
  QueryDNS_fresh_entry_survives cacheW10 6 { value := ["f"], counter := 6 }
    (by decide) (by decide) (by decide) (by decide)

end node

end DnsChord
